import Mathlib

/-!
Shallow embedding of `src/ext/selma/src/sanitizer.rs` (the Selma HTML
sanitizer core) and proofs about the claims of its specification.

Modelling conventions:
* Rust `u8` values are `Nat`s kept below 256; bitwise ops are `Nat.land`
  (`&&&`), `Nat.lor` (`|||`); the `u8` complement `!flag` is `255 ^^^ flag`.
* Rust `HashMap<String, _>` values are association lists with first-match
  lookup; insertion replaces the binding of an existing key.
* Rust `String`/`&str` are Lean `String`s.  Where the Rust code mixes byte
  lengths (`str::len`) with character positions (`chars().enumerate()`), the
  model computes the UTF-8 byte length explicitly with `Char.utf8Size`, so
  the mixed-unit behaviour of the source is preserved.
* Fallible Rust paths (`unwrap` panics, `Result`) become `Option`/`Except`.
* The `lol_html` element handle, the `escapist` escaping helpers and the
  `crate::tags` registry are external collaborators that are not part of the
  source file; they are modelled abstractly (see `Engine`, `Escapist`,
  `TagRegistry` below).
-/

namespace Selma

/-- Insert-or-replace on an association list, mirroring `HashMap::insert`:
the binding of an existing key is replaced in place, a new key is appended. -/
def assocSet {α : Type} : List (String × α) → String → α → List (String × α)
  | [], k, v => [(k, v)]
  | (k', v') :: rest, k, v =>
    if k' == k then (k, v) :: rest else (k', v') :: assocSet rest k v

/-- UTF-8 byte length of a string, mirroring Rust `str::len`. -/
def byteLen (s : String) : Nat :=
  s.data.foldl (fun n c => n + c.utf8Size) 0

/-- Mirrors Rust `str::to_lowercase` on the ASCII range (`A`-`Z` map to
`a`-`z`, all other ASCII characters are fixed).  Non-ASCII characters,
which Rust lowers by the Unicode tables, are left unchanged here, so
theorems whose truth depends on lowering restrict their domain to ASCII. -/
def toLowerString (s : String) : String :=
  String.mk (s.data.map Char.toLower)

/-- Mirrors Rust `str::trim_start` (drop leading whitespace). -/
def trimStart (s : String) : String :=
  String.mk (s.data.dropWhile Char.isWhitespace)

/-- Mirrors Rust `str::split_whitespace`: maximal runs of non-whitespace
characters, with no empty items. -/
def splitWhitespaceAux : List Char → List Char → List String
  | [], acc => if acc.isEmpty then [] else [String.mk acc.reverse]
  | c :: rest, acc =>
    if c.isWhitespace then
      if acc.isEmpty then splitWhitespaceAux rest []
      else String.mk acc.reverse :: splitWhitespaceAux rest []
    else splitWhitespaceAux rest (c :: acc)

def splitWhitespace (s : String) : List String :=
  splitWhitespaceAux s.data []

/-- Mirrors Rust `str::starts_with` for a string pattern (byte-prefix test,
which for valid UTF-8 is exactly the character-prefix test). -/
def startsWithStr (pat s : String) : Bool :=
  pat.data.isPrefixOf s.data

/-! ## Protocol validator (`has_allowed_protocol`, sanitizer.rs lines 331-358) -/

/-- The three delimiter characters of the boundary scan in
`has_allowed_protocol`. -/
def isProtoDelim (c : Char) : Bool :=
  c == ':' || c == '/' || c == '#'

/-- The `for (i, c) in attr_val.chars().enumerate()` loop of
`has_allowed_protocol`: `pos` is advanced to `i + 1` while the character is
not a delimiter and `pos + 1 < len` (where `len` is the byte length), and the
loop breaks otherwise.  `i` is the character index of the head of the
remaining list. -/
def protoScan (len : Nat) : List Char → Nat → Nat → Nat
  | [], _, pos => pos
  | c :: rest, i, pos =>
    if !isProtoDelim c && Nat.blt (pos + 1) len then protoScan len rest (i + 1) (i + 1)
    else pos

/-- The Rust byte slice `s[0..pos]` on a UTF-8 string given as characters:
consumes characters while their UTF-8 sizes fit in the byte budget `pos`.
Returns `none` exactly where Rust panics — when `pos` lands inside a
multi-byte character (not a character boundary) or exceeds the byte
length. -/
def byteSlice : List Char → Nat → Option (List Char)
  | _, 0 => some []
  | [], _ + 1 => none
  | c :: rest, n + 1 =>
    if c.utf8Size ≤ n + 1 then
      (byteSlice rest (n + 1 - c.utf8Size)).map (fun l => c :: l)
    else none

/-- `SelmaSanitizer::has_allowed_protocol`.  Returns `none` where the Rust
code panics: the `chars.nth(pos).unwrap()` on an out-of-range position, and
the byte slice `attr_val[0..pos]` (line 356) when `pos` — a character count
produced by `chars().enumerate()` — is not a character boundary of the
UTF-8 bytes.  The final comparison lowercases the sliced scheme twice,
exactly as the source does (`to_lowercase` at the slice and again inside
`contains`). -/
def has_allowed_protocol (protocols_allowed : List String) (attr_val : String) :
    Option Bool :=
  let cs := attr_val.data
  let len := byteLen attr_val
  let pos := protoScan len cs 0 0
  match cs.get? pos with
  | none => none
  | some c =>
    if c == '/' then some (protocols_allowed.contains "/")
    else if c == '#' then some (protocols_allowed.contains "#")
    else
      match byteSlice cs pos with
      | none => none
      | some sliced =>
        let protocol := toLowerString (String.mk sliced)
        some (protocols_allowed.contains (toLowerString protocol))

/-! ## Data model -/

/-- Modelled from the spec: the `Tag` registry lives in `crate::tags`, which
is not part of the source file.  §3/§4.1 of the spec: a tag has a stable
`index` into the flags table and a `self_closing` attribute. -/
structure Tag where
  index : Nat
  self_closing : Bool
deriving Repr, DecidableEq

/-- Modelled from the spec: the operations of the `crate::tags` registry used
by sanitizer.rs — `tag_from_element_name` (total, falls back to an unknown
tag) and the per-tag metadata predicates (§4.1, §3 "Tag"). -/
structure TagRegistry where
  tag_from_element_name : String → Tag
  has_text_content : Tag → Bool
  is_iframe : Tag → Bool
  is_meta : Tag → Bool

/-- Modelled from the spec: the external rewriting engine's
`Element::set_attribute` can fail ("Encoding failures", §7).  Which
(name, value) pairs fail is engine-defined, so the model abstracts it as a
boolean predicate. -/
structure Engine where
  set_attr_fails : String → String → Bool

/-- Modelled from the spec: the `escapist` crate's entity decoding and
re-encoding helpers (§4.4) are external pure string transformations. -/
structure Escapist where
  unescape_html : String → String
  escape_href : String → String
  escape_html : String → String

/-- The state of one `lol_html` element handle, as observed through the
mutations sanitizer.rs performs on it: its attribute list, whether it was
removed (and whether its inner content was kept, i.e.
`remove_and_keep_content` versus `remove`), any literal text inserted before
or after it, any replacement of its inner content, and whether a
remove-the-end-tag handler was registered via `on_end_tag`. -/
structure Element where
  tag_name : String
  attributes : List (String × String)
  removed : Bool
  content_kept : Bool
  before_text : List String
  after_text : List String
  inner_content : Option String
  end_tag_removed : Bool
deriving Repr, DecidableEq

def Element.remove (e : Element) : Element :=
  { e with removed := true, content_kept := false }

def Element.remove_and_keep_content (e : Element) : Element :=
  { e with removed := true, content_kept := true }

def Element.before (e : Element) (s : String) : Element :=
  { e with before_text := e.before_text ++ [s] }

def Element.after (e : Element) (s : String) : Element :=
  { e with after_text := e.after_text ++ [s] }

def Element.set_inner_content (e : Element) (s : String) : Element :=
  { e with inner_content := some s }

def Element.remove_attribute (e : Element) (name : String) : Element :=
  { e with attributes := e.attributes.filter (fun p => p.fst != name) }

/-- `Element::set_attribute` of the external engine: may fail (per the
`Engine` failure predicate), otherwise replaces the value of an existing
attribute of that name or appends a new one. -/
def Element.set_attribute (eng : Engine) (e : Element) (name val : String) :
    Except String Element :=
  if eng.set_attr_fails name val then Except.error "invalid attribute name"
  else Except.ok { e with attributes := assocSet e.attributes name val }

/-- An `element.set_attribute(...)` call whose `Result` the source discards
(sanitizer.rs lines 256 and 267): on failure the element is unchanged. -/
def Element.set_attribute_ignore (eng : Engine) (e : Element) (name val : String) :
    Element :=
  match e.set_attribute eng name val with
  | Except.ok e' => e'
  | Except.error _ => e

/-- `ElementSanitizer` (sanitizer.rs lines 16-22): the per-tag policy. -/
structure ElementSanitizer where
  allowed_attrs : List String
  required_attrs : List String
  allowed_classes : List String
  protocol_sanitizers : List (String × List String)
deriving Repr, DecidableEq

/-- `Sanitizer` (sanitizer.rs lines 24-34), minus the Ruby-only fields
(`name_prefix`, the opaque `config` hash).  `flags` is the
`[u8; Tag::TAG_COUNT]` table. -/
structure Sanitizer where
  flags : List Nat
  allowed_attrs : List String
  allowed_classes : List String
  element_sanitizers : List (String × ElementSanitizer)
  allow_comments : Bool
  allow_doctype : Bool
deriving Repr, DecidableEq

def SELMA_SANITIZER_ALLOW : Nat := 1
def SELMA_SANITIZER_REMOVE_CONTENTS : Nat := 2
def SELMA_SANITIZER_WRAP_WHITESPACE : Nat := 4

/-! ## Configuration setters -/

/-- `SelmaSanitizer::set_flag` (lines 84-91): OR the bit in, or AND with the
`u8` complement `!flag` (`255 ^^^ flag`) to clear it. -/
def set_flag (reg : TagRegistry) (s : Sanitizer) (element : String) (flag : Nat)
    (set : Bool) : Sanitizer :=
  let tag := reg.tag_from_element_name element
  if set then
    { s with flags := s.flags.set tag.index ((s.flags.getD tag.index 0) ||| flag) }
  else
    { s with flags := s.flags.set tag.index ((s.flags.getD tag.index 0) &&& (255 ^^^ flag)) }

/-- `SelmaSanitizer::set_all_flags` (lines 94-104).  The
`Tag::html_tags().iter().enumerate()` loop touches each slot index exactly
once, so it is a pointwise map over the flags table.  Note the source's
disable branch computes `flags[iter] &= flag` — a raw AND with the flag
value, not with its complement. -/
def set_all_flags (s : Sanitizer) (flag : Nat) (set : Bool) : Sanitizer :=
  if set then { s with flags := s.flags.map (fun v => v ||| flag) }
  else { s with flags := s.flags.map (fun v => v &&& flag) }

/-- One entry of the `allow_list` argument of `set_allowed_protocols`:
either a literal scheme string or the `:relative` symbol (any other Ruby
value is ignored by the source, so the model's closed type omits them). -/
inductive ProtocolEntry where
  | literal (s : String)
  | relative
deriving Repr, DecidableEq

/-- One iteration of the `for opt_allowed_protocol in allow_list.each()` loop
of `set_allowed_protocols` (lines 167-194). -/
def set_allowed_protocols_step (ps : List (String × List String))
    (attr_name : String) : ProtocolEntry → List (String × List String)
  | ProtocolEntry.literal str =>
    match ps.lookup attr_name with
    | none => assocSet ps attr_name [str]
    | some protocol_list => assocSet ps attr_name (protocol_list ++ [str])
  | ProtocolEntry.relative =>
    match ps.lookup attr_name with
    | none => assocSet ps attr_name ["#", "/"]
    | some protocol_list => assocSet ps attr_name (protocol_list ++ ["#", "/"])

/-- `SelmaSanitizer::set_allowed_protocols` (lines 160-195), acting on the
element sanitizer of the given element name.  Literal strings are appended
verbatim (no lowercasing at insert time); `:relative` appends the two
sentinel tokens `"#"` and `"/"`. -/
def set_allowed_protocols (es : ElementSanitizer) (attr_name : String)
    (allow_list : List ProtocolEntry) : ElementSanitizer :=
  { es with
    protocol_sanitizers :=
      allow_list.foldl (fun ps entry => set_allowed_protocols_step ps attr_name entry)
        es.protocol_sanitizers }

/-! ## Element decision engine -/

/-- `SelmaSanitizer::remove_element` (lines 429-446). -/
def remove_element (e : Element) (tag : Tag) (flags : Nat) : Element :=
  let wrap_whitespace := (flags &&& SELMA_SANITIZER_WRAP_WHITESPACE) != 0
  let remove_contents := (flags &&& SELMA_SANITIZER_REMOVE_CONTENTS) != 0
  if remove_contents then e.remove
  else
    let e :=
      if wrap_whitespace then
        if tag.self_closing then e.after " " else (e.before " ").after " "
      else e
    e.remove_and_keep_content

/-- `SelmaSanitizer::check_if_end_tag_needs_removal` (lines 453-464): when the
element is removed and its tag is not self-closing, register an `on_end_tag`
handler that removes the matching end tag. -/
def check_if_end_tag_needs_removal (reg : TagRegistry) (e : Element) : Element :=
  if e.removed && !(reg.tag_from_element_name (toLowerString e.tag_name)).self_closing then
    { e with end_tag_removed := true }
  else e

/-- `SelmaSanitizer::force_remove_element` (lines 448-451). -/
def force_remove_element (reg : TagRegistry) (e : Element) (tag : Tag) (flags : Nat) :
    Element :=
  check_if_end_tag_needs_removal reg (remove_element e tag flags)

/-- `SelmaSanitizer::try_remove_element` (lines 401-427).  Returns the
`should_remove` boolean together with the mutated element. -/
def try_remove_element (reg : TagRegistry) (s : Sanitizer) (e : Element) :
    Bool × Element :=
  let tag := reg.tag_from_element_name (toLowerString e.tag_name)
  let flags := s.flags.getD tag.index 0
  let should_remove := (flags &&& SELMA_SANITIZER_ALLOW) == 0
  if should_remove then
    let e :=
      if reg.has_text_content tag then
        remove_element e tag SELMA_SANITIZER_REMOVE_CONTENTS
      else remove_element e tag flags
    (should_remove, check_if_end_tag_needs_removal reg e)
  else
    let e :=
      if reg.is_iframe tag then
        if s.flags.getD tag.index 0 != 0 then e.set_inner_content " "
        else e.set_inner_content ""
      else e
    (should_remove, e)

/-! ## Attribute sanitization engine -/

/-- `SelmaSanitizer::sanitize_class_attribute` (lines 360-399).  `Except` is
the Rust `Result`: the `set_attribute` failure is wrapped in a named
`AttributeNameError` runtime error.  The returned element carries the
mutation performed by the successful `set_attribute`. -/
def sanitize_class_attribute (eng : Engine) (s : Sanitizer) (e : Element)
    (element_sanitizer : ElementSanitizer) (attr_name attr_val : String) :
    Except String (Bool × Element) :=
  let allowed_global := s.allowed_classes
  let allowed_local := element_sanitizer.allowed_classes
  if allowed_global.isEmpty && allowed_local.isEmpty then Except.ok (true, e)
  else
    let attr_value := trimStart attr_val
    let valid_classes :=
      (splitWhitespace attr_value).filter
        (fun class_name => allowed_global.contains class_name || allowed_local.contains class_name)
    if valid_classes.isEmpty then Except.ok (false, e)
    else
      match e.set_attribute eng attr_name (String.intercalate " " valid_classes) with
      | Except.ok e' => Except.ok (true, e')
      | Except.error err => Except.error ("AttributeNameError: " ++ err)

/-- `SelmaSanitizer::should_keep_attribute` (lines 288-329).  Returns `none`
where the source panics: the `.unwrap()` on `sanitize_class_attribute`'s
`Result` (line 323), and the `unwrap` inside `has_allowed_protocol`.  On
success it returns the keep decision together with the (possibly mutated,
via the class rewrite) element. -/
def should_keep_attribute (eng : Engine) (s : Sanitizer) (e : Element)
    (element_sanitizer : ElementSanitizer) (attr_name attr_val : String) :
    Option (Bool × Element) :=
  let allowed := element_sanitizer.allowed_attrs.contains attr_name
  let allowed := allowed || s.allowed_attrs.contains attr_name
  if !allowed then some (false, e)
  else
    let protoCheck : Option Bool :=
      match element_sanitizer.protocol_sanitizers.lookup attr_name with
      | none => some true
      | some protocol_sanitizer_values =>
        has_allowed_protocol protocol_sanitizer_values attr_val
    match protoCheck with
    | none => none
    | some ok =>
      if !ok then some (false, e)
      else
        if attr_name == "class" then
          match sanitize_class_attribute eng s e element_sanitizer attr_name attr_val with
          | Except.error _ => none
          | Except.ok (b, e') => if !b then some (false, e') else some (true, e')
        else some (true, e)

/-- The re-encoding step applied to a kept attribute (lines 251-268 of
`sanitize_attributes`): on a meta tag only a `charset` value other than
`"utf-8"` is rewritten (to `"utf-8"`); on any other tag the attribute is
set to the URL-escaped (for `href`) or HTML-escaped (otherwise) decoded
value.  The `Result` of each `set_attribute` is discarded by the source. -/
def keptAttrUpdate (reg : TagRegistry) (eng : Engine) (esc : Escapist) (tag : Tag)
    (e1 : Element) (attr_name unescaped_attr_val : String) : Element :=
  if reg.is_meta tag then
    if attr_name == "charset" && unescaped_attr_val != "utf-8" then
      e1.set_attribute_ignore eng attr_name "utf-8"
    else e1
  else
    let buf :=
      if attr_name == "href" then esc.escape_href unescaped_attr_val
      else esc.escape_html unescaped_attr_val
    e1.set_attribute_ignore eng attr_name buf

/-- The body of the `for (attr_name, attr_val) in attribute_map.iter()` loop
of `sanitize_attributes` (lines 223-274), recursing over the captured
attribute list.  `tag` is the tag computed before the loop (line 213).
Returns `none` where the source panics. -/
def sanitizeLoop (reg : TagRegistry) (eng : Engine) (esc : Escapist)
    (s : Sanitizer) (element_sanitizer : ElementSanitizer) (tag : Tag)
    (e : Element) : List (String × String) → Option Element
  | [] => some e
  | (attr_name, attr_val) :: rest =>
    if startsWithStr "<!--" attr_name then
      -- comment syntax embedded in an attribute name: remove the whole
      -- element (lines 227-233) and return from sanitize_attributes.
      let tag2 := reg.tag_from_element_name (toLowerString e.tag_name)
      let flags := s.flags.getD tag2.index 0
      some (force_remove_element reg e tag2 flags)
    else if !attr_val.isEmpty then
      let trimmed := trimStart attr_val
      let unescaped_attr_val := esc.unescape_html trimmed
      match should_keep_attribute eng s e element_sanitizer attr_name unescaped_attr_val with
      | none => none
      | some (keep, e1) =>
        if !keep then sanitizeLoop reg eng esc s element_sanitizer tag (e1.remove_attribute attr_name) rest
        else
          sanitizeLoop reg eng esc s element_sanitizer tag
            (keptAttrUpdate reg eng esc tag e1 attr_name unescaped_attr_val) rest
    else
      -- no value? remove the attribute (lines 270-273)
      sanitizeLoop reg eng esc s element_sanitizer tag (e.remove_attribute attr_name) rest

/-- `SelmaSanitizer::sanitize_attributes` (lines 205-286).  The source's
`keep_element` variable actually holds `try_remove_element`'s
`should_remove` result, so the early return fires exactly when the element
was removed.  The element sanitizer lookup uses the raw (non-lowercased)
tag name and its `unwrap` panic is `none`.  The trailing required-attrs
loop (lines 276-285) only reads state and returns; it performs no mutation,
so it has no model. -/
def sanitize_attributes (reg : TagRegistry) (eng : Engine) (esc : Escapist)
    (s : Sanitizer) (e : Element) : Option Element :=
  let res := try_remove_element reg s e
  let keep_element := res.fst
  let e := res.snd
  if keep_element then some e
  else
    let tag := reg.tag_from_element_name (toLowerString e.tag_name)
    match s.element_sanitizers.lookup e.tag_name with
    | none => none
    | some element_sanitizer =>
      sanitizeLoop reg eng esc s element_sanitizer tag e e.attributes

/-! ## Concrete test fixtures -/

def mkElement (tname : String) (attrs : List (String × String)) : Element :=
  { tag_name := tname, attributes := attrs, removed := false, content_kept := false,
    before_text := [], after_text := [], inner_content := none, end_tag_removed := false }

def mkSanitizer (flags : List Nat) (gAttrs gClasses : List String)
    (es : List (String × ElementSanitizer)) : Sanitizer :=
  { flags := flags, allowed_attrs := gAttrs, allowed_classes := gClasses,
    element_sanitizers := es, allow_comments := false, allow_doctype := false }

/-- A registry with a single generic tag: not self-closing, no text content,
not iframe, not meta. -/
def fixReg : TagRegistry :=
  { tag_from_element_name := fun _ => { index := 0, self_closing := false },
    has_text_content := fun _ => false,
    is_iframe := fun _ => false,
    is_meta := fun _ => false }

/-- A registry whose only tag is a meta tag. -/
def fixRegMeta : TagRegistry := { fixReg with is_meta := fun _ => true }

/-- A registry whose only tag has text content (script/style-like). -/
def fixRegText : TagRegistry := { fixReg with has_text_content := fun _ => true }

/-- An engine on which no attribute assignment fails. -/
def fixEng : Engine := { set_attr_fails := fun _ _ => false }

/-- An engine on which assigning the `class` attribute fails. -/
def fixEngFail : Engine := { set_attr_fails := fun n _ => n == "class" }

/-- The identity escapist: adequate for values on which the real `escapist`
functions are the identity (plain ASCII text with no escapable characters,
such as `"a c b"`). -/
def fixEscId : Escapist := { unescape_html := id, escape_href := id, escape_html := id }

/-- A tagging escapist that marks which encoder ran. -/
def fixEscH : Escapist :=
  { unescape_html := id,
    escape_href := fun s => "U(" ++ s ++ ")",
    escape_html := fun s => "H(" ++ s ++ ")" }

def fixES8 : ElementSanitizer :=
  { allowed_attrs := ["class"], required_attrs := [], allowed_classes := [],
    protocol_sanitizers := [] }

def fixS8 : Sanitizer := mkSanitizer [1] [] ["a", "b"] [("div", fixES8)]

def fixE8 : Element := mkElement "div" [("class", "a c b")]

def fixESMeta : ElementSanitizer :=
  { allowed_attrs := ["content"], required_attrs := [], allowed_classes := [],
    protocol_sanitizers := [] }

def fixSMeta : Sanitizer := mkSanitizer [1] [] [] [("meta", fixESMeta)]

def fixEMeta : Element := mkElement "meta" [("content", "a&b")]

def fixE3 : Element := mkElement "div" [("<!--x", "y")]

def fixS4 : Sanitizer := mkSanitizer [4] [] [] []

def fixE4 : Element := mkElement "script" [("x", "1")]

def fixES6 : ElementSanitizer :=
  { allowed_attrs := ["title"], required_attrs := [], allowed_classes := [],
    protocol_sanitizers := [] }

def fixS6 : Sanitizer := mkSanitizer [1] [] [] [("div", fixES6)]

def fixE6 : Element := mkElement "div" [("title", "x&y")]

def fixE8out : Element :=
  (sanitize_attributes fixReg fixEng fixEscId fixS8 fixE8).getD fixE8

def fixE3out : Element :=
  (sanitize_attributes fixReg fixEng fixEscId fixS8 fixE3).getD fixE3

/-! ## Helper lemmas -/

theorem utf8Size_foldl_ge (l : List Char) :
    ∀ n : Nat, n + l.length ≤ l.foldl (fun n c => n + c.utf8Size) n := by
  induction l with
  | nil => intro n; simp
  | cons c cs ih =>
    intro n
    have h1 := c.utf8Size_pos
    have h2 := ih (n + c.utf8Size)
    simp only [List.foldl, List.length_cons]
    omega

/-- A string has at least as many bytes as characters. -/
theorem length_le_byteLen (s : String) : s.data.length ≤ byteLen s := by
  have := utf8Size_foldl_ge s.data 0
  simpa [byteLen] using this

/-- The boundary scan stops exactly at the first delimiter when every
character before it is a non-delimiter and the byte length is large
enough. -/
theorem protoScan_stops (len : Nat) (d : Char) (hd : isProtoDelim d = true) :
    ∀ (pre rest : List Char) (i : Nat),
      (∀ c, c ∈ pre → isProtoDelim c = false) →
      i + pre.length < len →
      protoScan len (pre ++ d :: rest) i i = i + pre.length := by
  intro pre
  induction pre with
  | nil =>
    intro rest i _ _
    simp [protoScan, hd]
  | cons c cs ih =>
    intro rest i hclean hlen
    have hc : isProtoDelim c = false := hclean c (List.mem_cons_self c cs)
    have hblt : Nat.blt (i + 1) len = true := by
      have : i + 1 < len := by
        simp only [List.length_cons] at hlen
        omega
      simpa [Nat.blt_eq] using this
    have hcs : ∀ x, x ∈ cs → isProtoDelim x = false := by
      intro x hx
      exact hclean x (List.mem_cons_of_mem c hx)
    have hlen' : (i + 1) + cs.length < len := by
      simp only [List.length_cons] at hlen
      omega
    have := ih rest (i + 1) hcs hlen'
    simp only [List.cons_append, protoScan, hc, hblt, Bool.not_false, Bool.true_and,
      if_true, List.append_eq]
    rw [this]
    simp only [List.length_cons]
    omega


theorem toLower_ofNat_fixed (n : Nat) (h1 : 65 ≤ n) (h2 : n ≤ 90) :
    Char.toLower (Char.ofNat (n + 32)) = Char.ofNat (n + 32) := by
  interval_cases n <;> decide

theorem char_toLower_idem (c : Char) : c.toLower.toLower = c.toLower := by
  have hdef : c.toLower = if c.toNat ≥ 65 ∧ c.toNat ≤ 90 then Char.ofNat (c.toNat + 32) else c :=
    rfl
  rw [hdef]
  split
  · next hin => exact toLower_ofNat_fixed c.toNat hin.1 hin.2
  · next hout =>
    show Char.toLower c = c
    rw [hdef, if_neg hout]

theorem toLowerString_idem (x : String) :
    toLowerString (toLowerString x) = toLowerString x := by
  unfold toLowerString
  refine congrArg String.mk ?_
  show (x.data.map Char.toLower).map Char.toLower = x.data.map Char.toLower
  rw [List.map_map]
  refine List.map_congr_left ?_
  intro a _
  exact char_toLower_idem a

theorem mem_assocSet {α : Type} (k : String) (v : α) :
    ∀ (l : List (String × α)) (p : String × α), p ∈ assocSet l k v → p.fst = k ∨ p ∈ l := by
  intro l
  induction l with
  | nil =>
    intro p hp
    simp only [assocSet, List.mem_singleton] at hp
    subst hp
    left; rfl
  | cons hd tl ih =>
    obtain ⟨k', v'⟩ := hd
    intro p hp
    simp only [assocSet] at hp
    cases hk : (k' == k) with
    | true =>
      rw [hk, if_pos rfl] at hp
      rcases List.mem_cons.mp hp with h | h
      · subst h; left; rfl
      · right; exact List.mem_cons_of_mem _ h
    | false =>
      rw [hk] at hp
      simp only [Bool.false_eq_true, if_false] at hp
      rcases List.mem_cons.mp hp with h | h
      · subst h; right; exact List.mem_cons_self _ _
      · rcases ih p h with h' | h'
        · left; exact h'
        · right; exact List.mem_cons_of_mem _ h'

theorem sanitize_class_attribute_ok_shape (eng : Engine) (s : Sanitizer) (e : Element)
    (es : ElementSanitizer) (n v : String) (b : Bool) (e1 : Element)
    (h : sanitize_class_attribute eng s e es n v = Except.ok (b, e1)) :
    (e1 = e ∨ ∃ w, e1 = { e with attributes := assocSet e.attributes n w }) ∧
    (b = false → e1 = e) := by
  simp only [sanitize_class_attribute] at h
  split at h
  · simp only [Except.ok.injEq, Prod.mk.injEq] at h
    exact ⟨Or.inl h.2.symm, fun hb => h.2.symm⟩
  · split at h
    · simp only [Except.ok.injEq, Prod.mk.injEq] at h
      exact ⟨Or.inl h.2.symm, fun hb => h.2.symm⟩
    · split at h
      · next e' heq =>
        simp only [Except.ok.injEq, Prod.mk.injEq] at h
        unfold Element.set_attribute at heq
        split at heq
        · exact absurd heq (by simp)
        · simp only [Except.ok.injEq] at heq
          exact ⟨Or.inr ⟨_, h.2.symm.trans heq.symm⟩, fun hb => by simp [hb] at h⟩
      · exact absurd h (by simp)

theorem should_keep_attribute_shape (eng : Engine) (s : Sanitizer) (e : Element)
    (es : ElementSanitizer) (n v : String) (b : Bool) (e1 : Element)
    (h : should_keep_attribute eng s e es n v = some (b, e1)) :
    (e1 = e ∨ ∃ w, e1 = { e with attributes := assocSet e.attributes n w }) ∧
    (b = true → (es.allowed_attrs.contains n || s.allowed_attrs.contains n) = true) ∧
    (b = false → e1 = e) ∧
    (n ≠ "class" → e1 = e) := by
  simp only [should_keep_attribute] at h
  split at h
  · next hall =>
    simp only [Option.some.injEq, Prod.mk.injEq] at h
    exact ⟨Or.inl h.2.symm, fun hb => absurd (h.1.trans hb) Bool.false_ne_true,
      fun _ => h.2.symm, fun _ => h.2.symm⟩
  · next hall =>
    have hallowed : (es.allowed_attrs.contains n || s.allowed_attrs.contains n) = true := by
      rcases Bool.eq_false_or_eq_true (es.allowed_attrs.contains n || s.allowed_attrs.contains n)
        with hx | hx
      · exact hx
      · rw [hx] at hall
        exact absurd rfl hall
    split at h
    · exact absurd h (by simp)
    · split at h
      · simp only [Option.some.injEq, Prod.mk.injEq] at h
        exact ⟨Or.inl h.2.symm, fun hb => hallowed, fun _ => h.2.symm, fun _ => h.2.symm⟩
      · split at h
        · next hcls =>
          split at h
          · exact absurd h (by simp)
          · next b2 e2 heq2 =>
            have hsh := sanitize_class_attribute_ok_shape eng s e es n v b2 e2 heq2
            have hne : ¬ n ≠ "class" := fun hx => hx (by simpa using hcls)
            split at h
            · next hb2 =>
              simp only [Option.some.injEq, Prod.mk.injEq] at h
              have he2 : e2 = e := hsh.2 (by simpa using hb2)
              exact ⟨Or.inl (h.2.symm.trans he2), fun hb => hallowed,
                fun _ => h.2.symm.trans he2, fun hx => absurd hx hne⟩
            · simp only [Option.some.injEq, Prod.mk.injEq] at h
              refine ⟨?_, fun hb => hallowed,
                fun hb => absurd (h.1.trans hb) (by simp), fun hx => absurd hx hne⟩
              rw [← h.2]
              exact hsh.1
        · simp only [Option.some.injEq, Prod.mk.injEq] at h
          exact ⟨Or.inl h.2.symm, fun _ => hallowed, fun _ => h.2.symm, fun _ => h.2.symm⟩


theorem remove_attribute_fields (e : Element) (n : String) :
    (e.remove_attribute n).tag_name = e.tag_name ∧
    (e.remove_attribute n).removed = e.removed := by
  constructor <;> rfl

theorem mem_remove_attribute (e : Element) (n : String) (p : String × String)
    (hp : p ∈ (e.remove_attribute n).attributes) : p ∈ e.attributes ∧ p.fst ≠ n := by
  unfold Element.remove_attribute at hp
  simp only [List.mem_filter] at hp
  refine ⟨hp.1, ?_⟩
  have := hp.2
  simpa [bne] using this

theorem set_attribute_ignore_fields (eng : Engine) (e : Element) (n v : String) :
    (e.set_attribute_ignore eng n v).tag_name = e.tag_name ∧
    (e.set_attribute_ignore eng n v).removed = e.removed ∧
    ((e.set_attribute_ignore eng n v).attributes = e.attributes ∨
      (e.set_attribute_ignore eng n v).attributes = assocSet e.attributes n v) := by
  unfold Element.set_attribute_ignore Element.set_attribute
  split
  · next e2 heq =>
    split at heq
    · exact absurd heq (by simp)
    · simp only [Except.ok.injEq] at heq
      rw [← heq]
      exact ⟨rfl, rfl, Or.inr rfl⟩
  · next err heq =>
    exact ⟨rfl, rfl, Or.inl rfl⟩

theorem keptAttrUpdate_fields (reg : TagRegistry) (eng : Engine) (esc : Escapist)
    (tag : Tag) (e1 : Element) (n u : String) :
    (keptAttrUpdate reg eng esc tag e1 n u).tag_name = e1.tag_name ∧
    (keptAttrUpdate reg eng esc tag e1 n u).removed = e1.removed ∧
    ((keptAttrUpdate reg eng esc tag e1 n u).attributes = e1.attributes ∨
      ∃ w, (keptAttrUpdate reg eng esc tag e1 n u).attributes = assocSet e1.attributes n w) := by
  unfold keptAttrUpdate
  split
  · split
    · have h := set_attribute_ignore_fields eng e1 n "utf-8"
      refine ⟨h.1, h.2.1, ?_⟩
      rcases h.2.2 with h2 | h2
      · exact Or.inl h2
      · exact Or.inr ⟨_, h2⟩
    · exact ⟨rfl, rfl, Or.inl rfl⟩
  · have h := set_attribute_ignore_fields eng e1 n
      (if (n == "href") = true then esc.escape_href u else esc.escape_html u)
    refine ⟨h.1, h.2.1, ?_⟩
    rcases h.2.2 with h2 | h2
    · exact Or.inl h2
    · exact Or.inr ⟨_, h2⟩

theorem should_keep_fields (eng : Engine) (s : Sanitizer) (e : Element)
    (es : ElementSanitizer) (n v : String) (b : Bool) (e1 : Element)
    (h : should_keep_attribute eng s e es n v = some (b, e1)) :
    e1.tag_name = e.tag_name ∧ e1.removed = e.removed ∧
    (∀ p, p ∈ e1.attributes → p.fst = n ∨ p ∈ e.attributes) := by
  rcases (should_keep_attribute_shape eng s e es n v b e1 h).1 with h1 | ⟨w, h1⟩
  · rw [h1]
    exact ⟨rfl, rfl, fun p hp => Or.inr hp⟩
  · rw [h1]
    exact ⟨rfl, rfl, fun p hp => mem_assocSet n w e.attributes p hp⟩


theorem remove_element_spec (e : Element) (tag : Tag) (flags : Nat) :
    (remove_element e tag flags).removed = true ∧
    (remove_element e tag flags).content_kept =
      ((flags &&& SELMA_SANITIZER_REMOVE_CONTENTS) == 0) ∧
    (remove_element e tag flags).tag_name = e.tag_name ∧
    (remove_element e tag flags).attributes = e.attributes := by
  unfold remove_element
  cases hx : ((flags &&& SELMA_SANITIZER_REMOVE_CONTENTS) == 0) with
  | true =>
    have hbne : ((flags &&& SELMA_SANITIZER_REMOVE_CONTENTS) != 0) = false := by
      simp [bne, hx]
    simp only [hbne, Bool.false_eq_true, if_false]
    split
    · split <;> simp [Element.remove_and_keep_content, Element.before, Element.after]
    · simp [Element.remove_and_keep_content]
  | false =>
    have hbne : ((flags &&& SELMA_SANITIZER_REMOVE_CONTENTS) != 0) = true := by
      simp [bne, hx]
    simp [hbne, Element.remove]

theorem force_remove_element_spec (reg : TagRegistry) (e : Element) (tag : Tag)
    (flags : Nat) :
    (force_remove_element reg e tag flags).removed = true ∧
    (force_remove_element reg e tag flags).content_kept =
      ((flags &&& SELMA_SANITIZER_REMOVE_CONTENTS) == 0) ∧
    (force_remove_element reg e tag flags).tag_name = e.tag_name ∧
    ((reg.tag_from_element_name (toLowerString e.tag_name)).self_closing = false →
      (force_remove_element reg e tag flags).end_tag_removed = true) := by
  have h := remove_element_spec e tag flags
  unfold force_remove_element check_if_end_tag_needs_removal
  rw [h.1, h.2.2.1]
  cases hsc : (reg.tag_from_element_name (toLowerString e.tag_name)).self_closing with
  | false =>
    simp [hsc, h.1, h.2.1, h.2.2.1]
  | true =>
    simp [hsc, h.1, h.2.1, h.2.2.1]


theorem try_remove_element_kept_fields (reg : TagRegistry) (s : Sanitizer) (e : Element)
    (h : (s.flags.getD (reg.tag_from_element_name (toLowerString e.tag_name)).index 0 &&&
        SELMA_SANITIZER_ALLOW) ≠ 0) :
    (try_remove_element reg s e).fst = false ∧
    (try_remove_element reg s e).snd.tag_name = e.tag_name ∧
    (try_remove_element reg s e).snd.attributes = e.attributes ∧
    (try_remove_element reg s e).snd.removed = e.removed := by
  have hb : ((s.flags.getD (reg.tag_from_element_name (toLowerString e.tag_name)).index 0 &&&
      SELMA_SANITIZER_ALLOW) == 0) = false := by
    simpa using h
  unfold try_remove_element
  simp only [hb, Bool.false_eq_true, if_false]
  refine ⟨trivial, ?_, ?_, ?_⟩ <;> split <;> first | rfl | (split <;> rfl)

theorem try_remove_element_kept_not_iframe (reg : TagRegistry) (s : Sanitizer) (e : Element)
    (h : (s.flags.getD (reg.tag_from_element_name (toLowerString e.tag_name)).index 0 &&&
        SELMA_SANITIZER_ALLOW) ≠ 0)
    (hif : reg.is_iframe (reg.tag_from_element_name (toLowerString e.tag_name)) = false) :
    try_remove_element reg s e = (false, e) := by
  have hb : ((s.flags.getD (reg.tag_from_element_name (toLowerString e.tag_name)).index 0 &&&
      SELMA_SANITIZER_ALLOW) == 0) = false := by
    simpa using h
  simp only [try_remove_element]
  simp at hb
  simp [hb, hif]

theorem sanitize_attributes_kept (reg : TagRegistry) (eng : Engine) (esc : Escapist)
    (s : Sanitizer) (e : Element) (es : ElementSanitizer)
    (h : (s.flags.getD (reg.tag_from_element_name (toLowerString e.tag_name)).index 0 &&&
        SELMA_SANITIZER_ALLOW) ≠ 0)
    (hlook : s.element_sanitizers.lookup e.tag_name = some es) :
    sanitize_attributes reg eng esc s e =
      sanitizeLoop reg eng esc s es (reg.tag_from_element_name (toLowerString e.tag_name))
        (try_remove_element reg s e).snd e.attributes := by
  have hf := try_remove_element_kept_fields reg s e h
  simp only [sanitize_attributes]
  rw [hf.1]
  simp only [Bool.false_eq_true, if_false]
  rw [hf.2.1, hf.2.2.1, hlook]


theorem sanitizeLoop_injection_removes (reg : TagRegistry) (eng : Engine) (esc : Escapist)
    (s : Sanitizer) (es : ElementSanitizer) (tag : Tag) (tname : String) :
    ∀ (attrs : List (String × String)) (e e' : Element),
      e.tag_name = tname →
      (∃ p, p ∈ attrs ∧ startsWithStr "<!--" p.fst = true) →
      sanitizeLoop reg eng esc s es tag e attrs = some e' →
      e'.removed = true ∧
      e'.content_kept =
        ((s.flags.getD (reg.tag_from_element_name (toLowerString tname)).index 0 &&&
          SELMA_SANITIZER_REMOVE_CONTENTS) == 0) ∧
      ((reg.tag_from_element_name (toLowerString tname)).self_closing = false →
        e'.end_tag_removed = true) := by
  intro attrs
  induction attrs with
  | nil =>
    rintro e e' _ ⟨p, hp, _⟩ _
    exact absurd hp (List.not_mem_nil p)
  | cons hd tl ih =>
    rintro e e' htn ⟨p, hp, hinj⟩ hres
    obtain ⟨n, v⟩ := hd
    cases hn : startsWithStr "<!--" n with
    | true =>
      simp only [sanitizeLoop, hn, if_true] at hres
      simp only [Option.some.injEq] at hres
      have hf := force_remove_element_spec reg e
        (reg.tag_from_element_name (toLowerString e.tag_name))
        (s.flags.getD (reg.tag_from_element_name (toLowerString e.tag_name)).index 0)
      rw [htn] at hf
      rw [← hres, htn]
      exact ⟨hf.1, hf.2.1, hf.2.2.2⟩
    | false =>
      have hptl : p ∈ tl := by
        rcases List.mem_cons.mp hp with heq | h
        · rw [heq] at hinj
          exact absurd hinj (by rw [hn]; simp)
        · exact h
      simp only [sanitizeLoop, hn, Bool.false_eq_true, if_false] at hres
      cases hv : v.isEmpty with
      | true =>
        simp only [hv, Bool.not_true, Bool.false_eq_true, if_false] at hres
        exact ih (e.remove_attribute n) e' htn ⟨p, hptl, hinj⟩ hres
      | false =>
        simp only [hv, Bool.not_false, if_true] at hres
        cases hsk : should_keep_attribute eng s e es n (esc.unescape_html (trimStart v)) with
        | none =>
          rw [hsk] at hres
          exact absurd hres (by simp)
        | some ke1 =>
          obtain ⟨keep, e1⟩ := ke1
          rw [hsk] at hres
          have he1 := should_keep_fields eng s e es n (esc.unescape_html (trimStart v))
            keep e1 hsk
          cases hkeep : keep with
          | false =>
            simp only [hkeep, Bool.not_false, if_true] at hres
            refine ih (e1.remove_attribute n) e' ?_ ⟨p, hptl, hinj⟩ hres
            rw [(remove_attribute_fields e1 n).1, he1.1, htn]
          | true =>
            simp only [hkeep, Bool.not_true, Bool.false_eq_true, if_false] at hres
            refine ih (keptAttrUpdate reg eng esc tag e1 n (esc.unescape_html (trimStart v)))
              e' ?_ ⟨p, hptl, hinj⟩ hres
            rw [(keptAttrUpdate_fields reg eng esc tag e1 n (esc.unescape_html (trimStart v))).1,
              he1.1, htn]


theorem sanitizeLoop_allowlist (reg : TagRegistry) (eng : Engine) (esc : Escapist)
    (s : Sanitizer) (es : ElementSanitizer) (tag : Tag) :
    ∀ (attrs : List (String × String)) (e e' : Element),
      sanitizeLoop reg eng esc s es tag e attrs = some e' →
      e'.removed = false →
      (∀ p, p ∈ e.attributes →
        (es.allowed_attrs.contains p.fst || s.allowed_attrs.contains p.fst) = true ∨
        ∃ q, q ∈ attrs ∧ q.fst = p.fst) →
      ∀ p, p ∈ e'.attributes →
        (es.allowed_attrs.contains p.fst || s.allowed_attrs.contains p.fst) = true := by
  intro attrs
  induction attrs with
  | nil =>
    intro e e' hres hrem hinv p hp
    simp only [sanitizeLoop, Option.some.injEq] at hres
    rw [← hres] at hp
    rcases hinv p hp with h | ⟨q, hq, _⟩
    · exact h
    · exact absurd hq (List.not_mem_nil q)
  | cons hd tl ih =>
    intro e e' hres hrem hinv
    obtain ⟨n, v⟩ := hd
    cases hn : startsWithStr "<!--" n with
    | true =>
      simp only [sanitizeLoop, hn, if_true, Option.some.injEq] at hres
      have hf := force_remove_element_spec reg e
        (reg.tag_from_element_name (toLowerString e.tag_name))
        (s.flags.getD (reg.tag_from_element_name (toLowerString e.tag_name)).index 0)
      rw [hres] at hf
      exact absurd (hf.1.symm.trans hrem) (by simp)
    | false =>
      simp only [sanitizeLoop, hn, Bool.false_eq_true, if_false] at hres
      cases hv : v.isEmpty with
      | true =>
        simp only [hv, Bool.not_true, Bool.false_eq_true, if_false] at hres
        refine ih (e.remove_attribute n) e' hres hrem ?_
        intro p hp
        have hm := mem_remove_attribute e n p hp
        rcases hinv p hm.1 with h | ⟨q, hq, hqd⟩
        · exact Or.inl h
        · rcases List.mem_cons.mp hq with heq | hqtl
          · exfalso
            apply hm.2
            rw [← hqd, heq]
          · exact Or.inr ⟨q, hqtl, hqd⟩
      | false =>
        simp only [hv, Bool.not_false, if_true] at hres
        cases hsk : should_keep_attribute eng s e es n (esc.unescape_html (trimStart v)) with
        | none =>
          rw [hsk] at hres
          exact absurd hres (by simp)
        | some ke1 =>
          obtain ⟨keep, e1⟩ := ke1
          rw [hsk] at hres
          have hsh := should_keep_attribute_shape eng s e es n
            (esc.unescape_html (trimStart v)) keep e1 hsk
          cases hkeep : keep with
          | false =>
            simp only [hkeep, Bool.not_false, if_true] at hres
            have he1 : e1 = e := hsh.2.2.1 hkeep
            refine ih (e1.remove_attribute n) e' hres hrem ?_
            intro p hp
            have hm := mem_remove_attribute e1 n p hp
            rw [he1] at hm
            rcases hinv p hm.1 with h | ⟨q, hq, hqd⟩
            · exact Or.inl h
            · rcases List.mem_cons.mp hq with heq | hqtl
              · exfalso
                apply hm.2
                rw [← hqd, heq]
              · exact Or.inr ⟨q, hqtl, hqd⟩
          | true =>
            simp only [hkeep, Bool.not_true, Bool.false_eq_true, if_false] at hres
            have hunion : (es.allowed_attrs.contains n || s.allowed_attrs.contains n) = true :=
              hsh.2.1 hkeep
            have he1mem := (should_keep_fields eng s e es n
              (esc.unescape_html (trimStart v)) keep e1 hsk).2.2
            refine ih (keptAttrUpdate reg eng esc tag e1 n (esc.unescape_html (trimStart v)))
              e' hres hrem ?_
            intro p hp
            have hku := (keptAttrUpdate_fields reg eng esc tag e1 n
              (esc.unescape_html (trimStart v))).2.2
            have hp1 : p.fst = n ∨ p ∈ e1.attributes := by
              rcases hku with hk | ⟨w, hk⟩
              · rw [hk] at hp
                exact Or.inr hp
              · rw [hk] at hp
                exact mem_assocSet n w e1.attributes p hp
            have hp2 : p.fst = n ∨ p ∈ e.attributes := by
              rcases hp1 with h | h
              · exact Or.inl h
              · exact he1mem p h
            rcases hp2 with h | h
            · rw [h]
              exact Or.inl hunion
            · rcases hinv p h with hx | ⟨q, hq, hqd⟩
              · exact Or.inl hx
              · rcases List.mem_cons.mp hq with heq | hqtl
                · rw [heq] at hqd
                  rw [← hqd]
                  exact Or.inl hunion
                · exact Or.inr ⟨q, hqtl, hqd⟩


theorem check_if_end_tag_fields (reg : TagRegistry) (x : Element) :
    (check_if_end_tag_needs_removal reg x).removed = x.removed ∧
    (check_if_end_tag_needs_removal reg x).content_kept = x.content_kept ∧
    (check_if_end_tag_needs_removal reg x).before_text = x.before_text ∧
    (check_if_end_tag_needs_removal reg x).after_text = x.after_text ∧
    (check_if_end_tag_needs_removal reg x).attributes = x.attributes ∧
    (check_if_end_tag_needs_removal reg x).tag_name = x.tag_name := by
  unfold check_if_end_tag_needs_removal
  split
  · exact ⟨rfl, rfl, rfl, rfl, rfl, rfl⟩
  · exact ⟨rfl, rfl, rfl, rfl, rfl, rfl⟩

/-! ## Claim theorems -/

/-- C1: the claim states that `set_all_flags(f, false)` updates every tag
slot from `v` to `v AND (complement of f)`, clearing only bit `f`.  The
source's disable branch instead computes `v AND f` (`flags[iter] &= flag`,
line 101): with slots `[3, 5]` and `f = 1` (ALLOW) the code produces
`[1, 1]` — it keeps only bit `f` and clears every other bit — whereas the
claimed update gives `[3 AND NOT 1, 5 AND NOT 1] = [2, 4]`.  The sibling
`set_flag` uses `&= !flag` and the function's own doc comment says it
toggles options off, so the code, not the claim, is wrong. -/
theorem C1_set_all_flags_disable_is_raw_and :
    (set_all_flags (mkSanitizer [3, 5] [] [] []) 1 false).flags = [1, 1] ∧
    [3 &&& (255 ^^^ 1), 5 &&& (255 ^^^ 1)] = [2, 4] := by
  constructor
  · rfl
  · rfl

/-- C2: the four protocol-gate examples hold on `has_allowed_protocol`
exactly as the claim states them (`some b` is a normal boolean return). -/
theorem C2_protocol_gate_examples :
    has_allowed_protocol ["http"] "http://x" = some true ∧
    has_allowed_protocol ["http"] "javascript:alert(1)" = some false ∧
    has_allowed_protocol ["/"] "/relative/path" = some true ∧
    has_allowed_protocol ["#"] "#frag" = some true := by
  refine ⟨?_, ?_, ?_, ?_⟩ <;> decide

/-- C9: for a one-character attribute value consisting only of a delimiter
(`":"`, `"/"` or `"#"`), the boundary scan breaks immediately at position 0,
`chars.nth(0)` succeeds, and `has_allowed_protocol` returns a boolean
(`isSome`) rather than panicking, for every allowed-protocol list. -/
theorem C9_single_delimiter_value_no_panic (protocols : List String) :
    (has_allowed_protocol protocols ":").isSome = true ∧
    (has_allowed_protocol protocols "/").isSome = true ∧
    (has_allowed_protocol protocols "#").isSome = true :=
  ⟨rfl, rfl, rfl⟩

/-- C4: for every element whose tag's ALLOW bit is unset and whose tag
`has_text_content`, `try_remove_element` reports removal and removes the
element together with its entire inner content (`remove()`, i.e. forced
REMOVE_CONTENTS, never `remove_and_keep_content()`), inserting no
whitespace padding — whatever the configured REMOVE_CONTENTS and
WRAP_WHITESPACE bits of that tag are. -/
theorem C4_text_tags_forced_remove_contents (reg : TagRegistry) (s : Sanitizer) (e : Element)
    (hallow : (s.flags.getD (reg.tag_from_element_name (toLowerString e.tag_name)).index 0 &&&
        SELMA_SANITIZER_ALLOW) = 0)
    (htext : reg.has_text_content (reg.tag_from_element_name (toLowerString e.tag_name)) = true) :
    (try_remove_element reg s e).fst = true ∧
    (try_remove_element reg s e).snd.removed = true ∧
    (try_remove_element reg s e).snd.content_kept = false ∧
    (try_remove_element reg s e).snd.before_text = e.before_text ∧
    (try_remove_element reg s e).snd.after_text = e.after_text := by
  have hb : ((s.flags.getD (reg.tag_from_element_name (toLowerString e.tag_name)).index 0 &&&
      SELMA_SANITIZER_ALLOW) == 0) = true := by
    simpa using hallow
  have hrm : remove_element e (reg.tag_from_element_name (toLowerString e.tag_name))
      SELMA_SANITIZER_REMOVE_CONTENTS = e.remove := rfl
  have hck := check_if_end_tag_fields reg e.remove
  simp only [try_remove_element, hb, htext, if_true]
  rw [hrm]
  refine ⟨?_, ?_, ?_, ?_, ?_⟩
  · trivial
  · rw [hck.1]
    rfl
  · rw [hck.2.1]
    rfl
  · rw [hck.2.2.1]
    rfl
  · rw [hck.2.2.2.1]
    rfl

/-- Witness for C4: a disallowed text-content tag with WRAP_WHITESPACE and
not REMOVE_CONTENTS configured is still removed with its contents. -/
theorem C4_witness :
    (try_remove_element fixRegText fixS4 fixE4).fst = true ∧
    (try_remove_element fixRegText fixS4 fixE4).snd.removed = true ∧
    (try_remove_element fixRegText fixS4 fixE4).snd.content_kept = false ∧
    (try_remove_element fixRegText fixS4 fixE4).snd.before_text = fixE4.before_text ∧
    (try_remove_element fixRegText fixS4 fixE4).snd.after_text = fixE4.after_text :=
  C4_text_tags_forced_remove_contents fixRegText fixS4 fixE4 (by decide) (by decide)


/-- C3: for every kept element (its tag's ALLOW bit set, its sanitizer
registered) that has an attribute whose name begins with the literal
characters `<!--`, `sanitize_attributes` removes the whole element — using
the tag's configured flags to choose between full removal and unwrapping
(`content_kept` equals "REMOVE_CONTENTS bit unset") — and, when the tag is
not self-closing, registers removal of the matching end tag.  It does not
merely drop that one attribute. -/
theorem C3_comment_injection_forces_element_removal (reg : TagRegistry) (eng : Engine)
    (esc : Escapist) (s : Sanitizer) (e e' : Element) (es : ElementSanitizer)
    (hallow : (s.flags.getD (reg.tag_from_element_name (toLowerString e.tag_name)).index 0 &&&
        SELMA_SANITIZER_ALLOW) ≠ 0)
    (hlook : s.element_sanitizers.lookup e.tag_name = some es)
    (hinj : ∃ p, p ∈ e.attributes ∧ startsWithStr "<!--" p.fst = true)
    (hres : sanitize_attributes reg eng esc s e = some e') :
    e'.removed = true ∧
    e'.content_kept =
      ((s.flags.getD (reg.tag_from_element_name (toLowerString e.tag_name)).index 0 &&&
        SELMA_SANITIZER_REMOVE_CONTENTS) == 0) ∧
    ((reg.tag_from_element_name (toLowerString e.tag_name)).self_closing = false →
      e'.end_tag_removed = true) := by
  rw [sanitize_attributes_kept reg eng esc s e es hallow hlook] at hres
  have hk := try_remove_element_kept_fields reg s e hallow
  exact sanitizeLoop_injection_removes reg eng esc s es
    (reg.tag_from_element_name (toLowerString e.tag_name)) e.tag_name
    e.attributes (try_remove_element reg s e).snd e' hk.2.1 hinj hres

/-- Witness for C3: a kept div carrying an attribute named `<!--x` is
removed (here with contents kept, since REMOVE_CONTENTS is not configured)
and its end tag is suppressed. -/
theorem C3_witness :
    fixE3out.removed = true ∧
    fixE3out.content_kept =
      ((fixS8.flags.getD (fixReg.tag_from_element_name (toLowerString fixE3.tag_name)).index 0 &&&
        SELMA_SANITIZER_REMOVE_CONTENTS) == 0) ∧
    ((fixReg.tag_from_element_name (toLowerString fixE3.tag_name)).self_closing = false →
      fixE3out.end_tag_removed = true) :=
  C3_comment_injection_forces_element_removal fixReg fixEng fixEscId fixS8 fixE3 fixE3out
    fixES8 (by decide) (by decide) ⟨("<!--x", "y"), by decide, by decide⟩ (by rfl)

/-- C5: `should_keep_attribute` answers "remove" for every attribute whose
name is in neither the tag-local `allowed_attrs` nor the global
allowed-attribute set, and consequently, whenever `sanitize_attributes`
returns with the element still present (not removed), every attribute
remaining on the element has its name in that union of the two scopes. -/
theorem C5_allowlist_union_soundness (reg : TagRegistry) (eng : Engine) (esc : Escapist)
    (s : Sanitizer) (e e' : Element) (es : ElementSanitizer)
    (hallow : (s.flags.getD (reg.tag_from_element_name (toLowerString e.tag_name)).index 0 &&&
        SELMA_SANITIZER_ALLOW) ≠ 0)
    (hlook : s.element_sanitizers.lookup e.tag_name = some es)
    (hres : sanitize_attributes reg eng esc s e = some e')
    (hkept : e'.removed = false) :
    (∀ (e0 : Element) (n v : String),
      (es.allowed_attrs.contains n || s.allowed_attrs.contains n) = false →
      should_keep_attribute eng s e0 es n v = some (false, e0)) ∧
    (∀ p, p ∈ e'.attributes →
      (es.allowed_attrs.contains p.fst || s.allowed_attrs.contains p.fst) = true) := by
  constructor
  · intro e0 n v hnot
    simp only [should_keep_attribute, hnot, Bool.not_false, if_true]
  · rw [sanitize_attributes_kept reg eng esc s e es hallow hlook] at hres
    have hk := try_remove_element_kept_fields reg s e hallow
    refine sanitizeLoop_allowlist reg eng esc s es
      (reg.tag_from_element_name (toLowerString e.tag_name))
      e.attributes (try_remove_element reg s e).snd e' hres hkept ?_
    intro p hp
    rw [hk.2.2.1] at hp
    exact Or.inr ⟨p, hp, rfl⟩

/-- Witness for C5: `bad` is in neither allow-list scope, so
`should_keep_attribute` rejects it on the concrete fixture. -/
theorem C5_witness :
    should_keep_attribute fixEng fixS8 fixE8 fixES8 "bad" "2" = some (false, fixE8) :=
  (C5_allowlist_union_soundness fixReg fixEng fixEscId fixS8 fixE8 fixE8out fixES8
    (by decide) (by decide) (by rfl) (by decide)).1 fixE8 "bad" "2" (by decide)


/-- Counterexample for C7: the source lowercases only the attribute value's
scheme prefix, never the stored list entries, so an uppercase entry never
matches: with stored list `["HTTP"]` (which `set_allowed_protocols` stores
verbatim, no lowercasing at insert time), the value `http://x` — whose
scheme equals the entry up to letter case — is rejected, where the claim
requires acceptance. -/
theorem C7_counterexample_uppercase_entry :
    set_allowed_protocols
        { allowed_attrs := [], required_attrs := [], allowed_classes := [],
          protocol_sanitizers := [] } "href" [ProtocolEntry.literal "HTTP"] =
      { allowed_attrs := [], required_attrs := [], allowed_classes := [],
        protocol_sanitizers := [("href", ["HTTP"])] } ∧
    has_allowed_protocol ["HTTP"] "http://x" = some false := by
  constructor
  · rfl
  · decide

/-- On a prefix of one-byte (ASCII) characters the byte budget equals the
character count, so the Rust slice `[0..pre.length]` of `pre ++ rest`
succeeds and yields exactly `pre`. -/
theorem byteSlice_ascii (rest : List Char) :
    ∀ pre : List Char, (∀ c, c ∈ pre → c.utf8Size = 1) →
      byteSlice (pre ++ rest) pre.length = some pre := by
  intro pre
  induction pre with
  | nil =>
    intro _
    cases rest with
    | nil => rfl
    | cons a t => rfl
  | cons c cs ih =>
    intro h
    have hc : c.utf8Size = 1 := h c (List.mem_cons_self c cs)
    have hcs : ∀ x, x ∈ cs → x.utf8Size = 1 := fun x hx => h x (List.mem_cons_of_mem c hx)
    simp only [List.cons_append, List.length_cons, byteSlice, hc, List.append_eq]
    have hle : 1 ≤ cs.length + 1 := by omega
    rw [if_pos hle]
    have hsub : cs.length + 1 - 1 = cs.length := by omega
    rw [hsub, ih hcs]
    rfl

/-- C7 as amended: scheme matching is case-insensitive in the *value* only —
the value's scheme prefix is lowercased before the comparison — and the
lowercased prefix is compared verbatim against the stored entries.  For
every list `L`, every delimiter-free ASCII scheme prefix `pre` (one-byte
characters, so the source's byte-offset slice and Unicode lowering coincide
with the model's) and every remainder `rest`, if the lowercased prefix is
literally contained in `L` (in particular whenever the stored entry is that
lowercase scheme), then `has_allowed_protocol` accepts `pre ++ ":" ++ rest`.
Entries that are not lowercase are never matched (see the
counterexample). -/
theorem C7_amended_value_scheme_lowercased (L : List String) (pre rest : List Char)
    (hpre : ∀ c, c ∈ pre → isProtoDelim c = false)
    (hascii : ∀ c, c ∈ pre → c.utf8Size = 1)
    (hmem : L.contains (toLowerString (String.mk pre)) = true) :
    has_allowed_protocol L (String.mk (pre ++ ':' :: rest)) = some true := by
  unfold has_allowed_protocol
  have hdata : (String.mk (pre ++ ':' :: rest)).data = pre ++ ':' :: rest := rfl
  have hlen : 0 + pre.length < byteLen (String.mk (pre ++ ':' :: rest)) := by
    have h1 := length_le_byteLen (String.mk (pre ++ ':' :: rest))
    rw [hdata] at h1
    simp only [List.length_append, List.length_cons] at h1
    omega
  have hscan : protoScan (byteLen (String.mk (pre ++ ':' :: rest)))
      (pre ++ ':' :: rest) 0 0 = 0 + pre.length :=
    protoScan_stops _ ':' (by decide) pre rest 0 hpre hlen
  simp only [hdata, hscan, Nat.zero_add]
  have hget : (pre ++ ':' :: rest).get? pre.length = some ':' := by
    rw [List.get?_append_right (Nat.le_refl _)]
    simp
  rw [hget]
  have hcolon1 : (':' == '/') = false := by decide
  have hcolon2 : (':' == '#') = false := by decide
  have hslice : byteSlice (pre ++ ':' :: rest) pre.length = some pre :=
    byteSlice_ascii (':' :: rest) pre hascii
  simp [hslice, hcolon1, hcolon2, toLowerString_idem, hmem]
  exact List.mem_of_elem_eq_true hmem

/-- Witness for C7 (amended): a mixed-case ASCII scheme in the value is
accepted against a lowercase stored entry. -/
theorem C7_witness :
    has_allowed_protocol ["http"] (String.mk ("HtTp".data ++ ':' :: "//x".data)) = some true :=
  C7_amended_value_scheme_lowercased ["http"] "HtTp".data "//x".data (by decide) (by decide)
    (by decide)


theorem assocSet_self {α : Type} (n : String) (x y : α) :
    assocSet [(n, x)] n y = [(n, y)] := by
  simp [assocSet]

/-- Counterexample for C6: on a meta tag, a surviving attribute other than
`charset` is not re-encoded at all — the claim requires general
HTML-attribute escaping for it.  With an escapist whose HTML encoder tags
its output, the surviving `content` attribute of a kept `meta` element
comes out exactly as it went in, not as the encoder's output. -/
theorem C6_counterexample_meta_attr_not_reencoded :
    (sanitize_attributes fixRegMeta fixEng fixEscH fixSMeta fixEMeta).map Element.attributes
      = some [("content", "a&b")] ∧
    fixEscH.escape_html (fixEscH.unescape_html (trimStart "a&b")) = "H(a&b)" ∧
    ("a&b" : String) ≠ "H(a&b)" := by
  refine ⟨by decide, by decide, by decide⟩

/-- C6 as amended: re-encoding of survivors happens only on non-meta tags —
there `href` gets the URL-safe encoder and every other surviving attribute
the general HTML encoder, both applied to the decoded value; on a meta tag
the only rewrite is `charset` ↦ `utf-8` when the decoded value differs from
`utf-8`, and every other surviving attribute keeps its value as validated
(no re-encoding).  Stated for a kept, non-iframe element carrying one
attribute `(n, v)` that survives validation. -/
theorem C6_amended_reencoding_by_tag_kind (reg : TagRegistry) (eng : Engine)
    (esc : Escapist) (s : Sanitizer) (e e1 : Element) (es : ElementSanitizer)
    (n v : String)
    (hallow : (s.flags.getD (reg.tag_from_element_name (toLowerString e.tag_name)).index 0 &&&
        SELMA_SANITIZER_ALLOW) ≠ 0)
    (hif : reg.is_iframe (reg.tag_from_element_name (toLowerString e.tag_name)) = false)
    (hlook : s.element_sanitizers.lookup e.tag_name = some es)
    (hattrs : e.attributes = [(n, v)])
    (hinj : startsWithStr "<!--" n = false)
    (hv : v.isEmpty = false)
    (hkeep : should_keep_attribute eng s e es n (esc.unescape_html (trimStart v)) =
      some (true, e1)) :
    (reg.is_meta (reg.tag_from_element_name (toLowerString e.tag_name)) = false →
      (n == "href") = true →
      eng.set_attr_fails n (esc.escape_href (esc.unescape_html (trimStart v))) = false →
      (sanitize_attributes reg eng esc s e).map Element.attributes =
        some [(n, esc.escape_href (esc.unescape_html (trimStart v)))]) ∧
    (reg.is_meta (reg.tag_from_element_name (toLowerString e.tag_name)) = false →
      (n == "href") = false →
      eng.set_attr_fails n (esc.escape_html (esc.unescape_html (trimStart v))) = false →
      (sanitize_attributes reg eng esc s e).map Element.attributes =
        some [(n, esc.escape_html (esc.unescape_html (trimStart v)))]) ∧
    (reg.is_meta (reg.tag_from_element_name (toLowerString e.tag_name)) = true →
      ((n == "charset") && (esc.unescape_html (trimStart v) != "utf-8")) = true →
      eng.set_attr_fails n "utf-8" = false →
      (sanitize_attributes reg eng esc s e).map Element.attributes = some [(n, "utf-8")]) ∧
    (reg.is_meta (reg.tag_from_element_name (toLowerString e.tag_name)) = true →
      ((n == "charset") && (esc.unescape_html (trimStart v) != "utf-8")) = false →
      (sanitize_attributes reg eng esc s e).map Element.attributes = some e1.attributes) := by
  have hout : sanitize_attributes reg eng esc s e =
      some (keptAttrUpdate reg eng esc (reg.tag_from_element_name (toLowerString e.tag_name))
        e1 n (esc.unescape_html (trimStart v))) := by
    rw [sanitize_attributes_kept reg eng esc s e es hallow hlook,
      try_remove_element_kept_not_iframe reg s e hallow hif]
    rw [hattrs]
    simp only [sanitizeLoop, hinj, Bool.false_eq_true, if_false, hv, Bool.not_false, if_true,
      hkeep, Bool.not_true]
  have hset : ∀ y : String, assocSet e1.attributes n y = [(n, y)] := by
    intro y
    rcases (should_keep_attribute_shape eng s e es n (esc.unescape_html (trimStart v))
      true e1 hkeep).1 with h1 | ⟨w, h1⟩
    · rw [h1, hattrs]
      exact assocSet_self n v y
    · rw [h1]
      show assocSet (assocSet e.attributes n w) n y = [(n, y)]
      rw [hattrs, assocSet_self, assocSet_self]
  refine ⟨?_, ?_, ?_, ?_⟩
  · intro hmeta hhref hnf
    rw [hout]
    simp only [Option.map_some']
    unfold keptAttrUpdate
    rw [hmeta]
    simp only [Bool.false_eq_true, if_false, hhref, if_true]
    unfold Element.set_attribute_ignore Element.set_attribute
    rw [hnf]
    simp only [Bool.false_eq_true, if_false]
    exact congrArg _ (hset _)
  · intro hmeta hhref hnf
    rw [hout]
    simp only [Option.map_some']
    unfold keptAttrUpdate
    rw [hmeta]
    simp only [Bool.false_eq_true, if_false, hhref]
    unfold Element.set_attribute_ignore Element.set_attribute
    rw [hnf]
    simp only [Bool.false_eq_true, if_false]
    exact congrArg _ (hset _)
  · intro hmeta hcha hnf
    rw [hout]
    simp only [Option.map_some']
    unfold keptAttrUpdate
    rw [hmeta]
    simp only [if_true, hcha]
    unfold Element.set_attribute_ignore Element.set_attribute
    rw [hnf]
    simp only [Bool.false_eq_true, if_false]
    exact congrArg _ (hset _)
  · intro hmeta hcha
    rw [hout]
    simp only [Option.map_some']
    unfold keptAttrUpdate
    rw [hmeta]
    simp only [if_true, hcha, Bool.false_eq_true, if_false]


/-- Witness for C6 (amended): a surviving non-href attribute on a non-meta
tag comes out HTML-escaped (the tagging encoder's output). -/
theorem C6_witness :
    (sanitize_attributes fixReg fixEng fixEscH fixS6 fixE6).map Element.attributes =
      some [("title", fixEscH.escape_html (fixEscH.unescape_html (trimStart "x&y")))] :=
  (C6_amended_reencoding_by_tag_kind fixReg fixEng fixEscH fixS6 fixE6 fixE6 fixES6
    "title" "x&y" (by decide) (by decide) (by decide) (by decide) (by decide) (by decide)
    (by decide)).2.1 (by decide) (by decide) (by decide)


/-- Counterexample for C8: with allowed classes `{"a","b"}` and input
`class="a c b"`, `sanitize_class_attribute` does compute and set the
filtered value `"a b"`, but `sanitize_attributes` then overwrites the kept
class attribute with the escaped *original* value, so the element ends with
`class="a c b"` — not the claimed intersection `"a b"`.  (The identity
escapist is used; the real escapist is the identity on `"a c b"`, which has
no escapable characters.) -/
theorem C8_counterexample_class_filter_overwritten :
    (sanitize_attributes fixReg fixEng fixEscId fixS8 fixE8).map Element.attributes =
      some [("class", "a c b")] ∧
    sanitize_class_attribute fixEng fixS8 fixE8 fixES8 "class" "a c b" =
      Except.ok (true, mkElement "div" [("class", "a b")]) ∧
    ("a c b" : String) ≠ "a b" := by
  refine ⟨by decide, by rfl, by decide⟩

/-- C8 as amended: (i) with both allowed-class sets empty the value passes
the filter unmodified; (ii) otherwise the value is split on whitespace,
tokens outside the union of the two sets are dropped, and the survivors are
rejoined with single spaces and written to the class attribute by
`sanitize_class_attribute`; (iii) with zero survivors it reports `false`
and (iv) the caller then drops the whole class attribute from the element;
but (v) when survivors exist, `sanitize_attributes` subsequently overwrites
the kept class attribute with the HTML-escaped original (unfiltered)
value, so the filtered value does not reach the output. -/
theorem C8_amended_class_filter (eng : Engine) (s : Sanitizer) (es : ElementSanitizer) :
    (∀ (e : Element) (n v : String),
      s.allowed_classes = [] → es.allowed_classes = [] →
      sanitize_class_attribute eng s e es n v = Except.ok (true, e)) ∧
    (∀ (e : Element) (n v : String),
      (s.allowed_classes.isEmpty && es.allowed_classes.isEmpty) = false →
      ((splitWhitespace (trimStart v)).filter
        (fun cl => s.allowed_classes.contains cl || es.allowed_classes.contains cl)).isEmpty
          = false →
      eng.set_attr_fails n (String.intercalate " "
        ((splitWhitespace (trimStart v)).filter
          (fun cl => s.allowed_classes.contains cl || es.allowed_classes.contains cl))) = false →
      sanitize_class_attribute eng s e es n v =
        Except.ok (true,
          { e with attributes := assocSet e.attributes n (String.intercalate " "
              ((splitWhitespace (trimStart v)).filter
                (fun cl => s.allowed_classes.contains cl || es.allowed_classes.contains cl))) })) ∧
    (∀ (e : Element) (n v : String),
      (s.allowed_classes.isEmpty && es.allowed_classes.isEmpty) = false →
      ((splitWhitespace (trimStart v)).filter
        (fun cl => s.allowed_classes.contains cl || es.allowed_classes.contains cl)).isEmpty
          = true →
      sanitize_class_attribute eng s e es n v = Except.ok (false, e)) ∧
    (∀ (reg : TagRegistry) (esc : Escapist) (e : Element) (v : String),
      (s.flags.getD (reg.tag_from_element_name (toLowerString e.tag_name)).index 0 &&&
        SELMA_SANITIZER_ALLOW) ≠ 0 →
      reg.is_iframe (reg.tag_from_element_name (toLowerString e.tag_name)) = false →
      s.element_sanitizers.lookup e.tag_name = some es →
      e.attributes = [("class", v)] →
      v.isEmpty = false →
      should_keep_attribute eng s e es "class" (esc.unescape_html (trimStart v)) =
        some (false, e) →
      (sanitize_attributes reg eng esc s e).map Element.attributes = some []) ∧
    (∀ (reg : TagRegistry) (esc : Escapist) (e e1 : Element) (v : String),
      (s.flags.getD (reg.tag_from_element_name (toLowerString e.tag_name)).index 0 &&&
        SELMA_SANITIZER_ALLOW) ≠ 0 →
      reg.is_iframe (reg.tag_from_element_name (toLowerString e.tag_name)) = false →
      s.element_sanitizers.lookup e.tag_name = some es →
      e.attributes = [("class", v)] →
      v.isEmpty = false →
      reg.is_meta (reg.tag_from_element_name (toLowerString e.tag_name)) = false →
      eng.set_attr_fails "class" (esc.escape_html (esc.unescape_html (trimStart v))) = false →
      should_keep_attribute eng s e es "class" (esc.unescape_html (trimStart v)) =
        some (true, e1) →
      (sanitize_attributes reg eng esc s e).map Element.attributes =
        some [("class", esc.escape_html (esc.unescape_html (trimStart v)))]) := by
  refine ⟨?_, ?_, ?_, ?_, ?_⟩
  · intro e n v h1 h2
    simp [sanitize_class_attribute, h1, h2]
  · intro e n v hboth hvalid hnf
    simp only [sanitize_class_attribute, hboth, Bool.false_eq_true, if_false, hvalid]
    unfold Element.set_attribute
    rw [hnf]
    simp only [Bool.false_eq_true, if_false]
  · intro e n v hboth hvalid
    simp only [sanitize_class_attribute, hboth, Bool.false_eq_true, if_false, hvalid, if_true]
  · intro reg esc e v hallow hif hlook hattrs hv hsk
    rw [sanitize_attributes_kept reg eng esc s e es hallow hlook,
      try_remove_element_kept_not_iframe reg s e hallow hif]
    rw [hattrs]
    have hinj : startsWithStr "<!--" "class" = false := by decide
    simp only [sanitizeLoop, hinj, Bool.false_eq_true, if_false, hv, Bool.not_false, if_true,
      hsk, Bool.not_true]
    simp [Element.remove_attribute, hattrs]
  · intro reg esc e e1 v hallow hif hlook hattrs hv hmeta hnf hsk
    have hinj : startsWithStr "<!--" "class" = false := by decide
    have hout : sanitize_attributes reg eng esc s e =
        some (keptAttrUpdate reg eng esc (reg.tag_from_element_name (toLowerString e.tag_name))
          e1 "class" (esc.unescape_html (trimStart v))) := by
      rw [sanitize_attributes_kept reg eng esc s e es hallow hlook,
        try_remove_element_kept_not_iframe reg s e hallow hif]
      rw [hattrs]
      simp only [sanitizeLoop, hinj, Bool.false_eq_true, if_false, hv, Bool.not_false, if_true,
        hsk, Bool.not_true]
    have hset : ∀ y : String, assocSet e1.attributes "class" y = [("class", y)] := by
      intro y
      rcases (should_keep_attribute_shape eng s e es "class"
        (esc.unescape_html (trimStart v)) true e1 hsk).1 with h1 | ⟨w, h1⟩
      · rw [h1, hattrs]
        exact assocSet_self "class" v y
      · rw [h1]
        show assocSet (assocSet e.attributes "class" w) "class" y = [("class", y)]
        rw [hattrs, assocSet_self, assocSet_self]
    rw [hout]
    simp only [Option.map_some']
    unfold keptAttrUpdate
    rw [hmeta]
    have hhref : ("class" == "href") = false := by decide
    simp only [Bool.false_eq_true, if_false, hhref]
    unfold Element.set_attribute_ignore Element.set_attribute
    rw [hnf]
    simp only [Bool.false_eq_true, if_false]
    exact congrArg _ (hset _)

/-- Witness for C8 (amended): on the concrete fixture the class filter keeps
`"a b"` inside `sanitize_class_attribute`, yet the element's final class
value is the (identity-)escaped original `"a c b"`. -/
theorem C8_witness :
    (sanitize_attributes fixReg fixEng fixEscId fixS8 fixE8).map Element.attributes =
      some [("class", fixEscId.escape_html (fixEscId.unescape_html (trimStart "a c b")))] :=
  (C8_amended_class_filter fixEng fixS8 fixES8).2.2.2.2 fixReg fixEscId fixE8
    (mkElement "div" [("class", "a b")]) "a c b"
    (by decide) (by decide) (by decide) (by decide) (by decide) (by decide) (by decide)
    (by decide)


/-- Counterexample for C10: when setting the class attribute fails,
`sanitize_class_attribute` does build the named error, but its caller
`should_keep_attribute` calls `.unwrap()` on that `Result` (line 323), so
the sanitization pass panics (`none`) instead of reporting the error. -/
theorem C10_counterexample_unwrap_panics :
    sanitize_class_attribute fixEngFail fixS8 fixE8 fixES8 "class" "a c b" =
      Except.error "AttributeNameError: invalid attribute name" ∧
    should_keep_attribute fixEngFail fixS8 fixE8 fixES8 "class" "a c b" = none := by
  exact ⟨rfl, rfl⟩

/-- C10 as amended: a failed class-attribute assignment is wrapped by
`sanitize_class_attribute` in a named `AttributeNameError` and returned to
its caller as an error value — but `should_keep_attribute` unwraps that
`Result`, so the failure panics the sanitization pass (modelled as `none`)
rather than propagating as an error. -/
theorem C10_amended_error_named_but_unwrapped (eng : Engine) (s : Sanitizer)
    (es : ElementSanitizer) (e : Element) (v : String)
    (hboth : (s.allowed_classes.isEmpty && es.allowed_classes.isEmpty) = false)
    (hvalid : ((splitWhitespace (trimStart v)).filter
      (fun cl => s.allowed_classes.contains cl || es.allowed_classes.contains cl)).isEmpty
        = false)
    (hfail : eng.set_attr_fails "class" (String.intercalate " "
      ((splitWhitespace (trimStart v)).filter
        (fun cl => s.allowed_classes.contains cl || es.allowed_classes.contains cl))) = true)
    (hallowed : (es.allowed_attrs.contains "class" || s.allowed_attrs.contains "class") = true)
    (hproto : es.protocol_sanitizers.lookup "class" = none) :
    sanitize_class_attribute eng s e es "class" v =
      Except.error ("AttributeNameError: " ++ "invalid attribute name") ∧
    should_keep_attribute eng s e es "class" v = none := by
  have h1 : sanitize_class_attribute eng s e es "class" v =
      Except.error ("AttributeNameError: " ++ "invalid attribute name") := by
    simp only [sanitize_class_attribute, hboth, Bool.false_eq_true, if_false, hvalid]
    unfold Element.set_attribute
    rw [hfail]
    simp only [if_true]
  refine ⟨h1, ?_⟩
  simp only [should_keep_attribute, hallowed, Bool.not_true, Bool.false_eq_true, if_false,
    hproto, h1]
  rfl

/-- Witness for C10 (amended) at a concrete failing engine. -/
theorem C10_witness :
    sanitize_class_attribute fixEngFail fixS8 fixE8 fixES8 "class" "a" =
      Except.error ("AttributeNameError: " ++ "invalid attribute name") ∧
    should_keep_attribute fixEngFail fixS8 fixE8 fixES8 "class" "a" = none :=
  C10_amended_error_named_but_unwrapped fixEngFail fixS8 fixES8 fixE8 "a"
    (by decide) (by decide) (by decide) (by decide) (by decide)

end Selma
